import Mathlib

/-!
Verification development for the probe-srv HTTP probing engine
(src/src/probes/http.js with helpers from src/src/utils.ts).

The JavaScript source is shallowly embedded: the probe chain is a pure
function over a scripted list of network legs, machine state is threaded
explicitly, and fallible code returns Except. Platform primitives
(Number, parseInt, parseFloat, the legacy url module, regular-expression
search) are modelled at the boundary with simple computable functions,
documented at each definition.
-/

namespace ProbeSrv

deriving instance DecidableEq for Except

/-! ## Models of JavaScript platform primitives -/

/-- The upper-case variant of a lower-case ASCII letter; every other
character maps to itself. -/
def upperChar : Char → Char
  | 'a' => 'A' | 'b' => 'B' | 'c' => 'C' | 'd' => 'D' | 'e' => 'E' | 'f' => 'F'
  | 'g' => 'G' | 'h' => 'H' | 'i' => 'I' | 'j' => 'J' | 'k' => 'K' | 'l' => 'L'
  | 'm' => 'M' | 'n' => 'N' | 'o' => 'O' | 'p' => 'P' | 'q' => 'Q' | 'r' => 'R'
  | 's' => 'S' | 't' => 'T' | 'u' => 'U' | 'v' => 'V' | 'w' => 'W' | 'x' => 'X'
  | 'y' => 'Y' | 'z' => 'Z' | c => c

/-- Case-insensitive character comparison against a lower-case pattern
character, as performed by a case-insensitive regular expression. -/
def charCI (c p : Char) : Bool :=
  c == p || c == upperChar p

/-- Case-insensitive string comparison of a character list against a
lower-case pattern, modelling an anchored case-insensitive regex literal. -/
def strCI : List Char → List Char → Bool
  | [], [] => true
  | c :: cs, p :: ps => charCI c p && strCI cs ps
  | _, _ => false

/-- Anchored case-insensitive match of a string against a lower-case
pattern string. -/
def matchCI (s pat : String) : Bool := strCI s.data pat.data

/-- From src/src/utils.ts isTrueString: anchored case-insensitive match of
1, y, yes, t or true. -/
def isTrueString (s : String) : Bool :=
  matchCI s "1" || matchCI s "y" || matchCI s "yes" || matchCI s "t" || matchCI s "true"

/-- From src/src/utils.ts isFalseString: anchored case-insensitive match of
0, n, no, f or false. -/
def isFalseString (s : String) : Bool :=
  matchCI s "0" || matchCI s "n" || matchCI s "no" || matchCI s "f" || matchCI s "false"

/-- Modelled from the spec: parseBooleanQueryParam is imported by
src/src/probes/http.js from utils but is not under src. The spec requires
a follow-redirects flag with default true (section 4.1), a tri-state
secure expectation (section 4.4) and that expectHttpRedirects equal to 2
produces no redirect failure when two redirects were followed (section 8),
so a non-boolean-like string must fall back to the supplied default. The
boolean-like vocabularies are isTrueString and isFalseString from
src/src/utils.ts. -/
def parseBooleanQueryParam (value : Option String) (defaultValue : Option Bool) : Option Bool :=
  match value with
  | none => defaultValue
  | some s =>
      if isTrueString s then some true
      else if isFalseString s then some false
      else defaultValue

/-- Numeric value of a list of decimal digit characters. -/
def digitsVal (cs : List Char) : Int :=
  cs.foldl (fun a c => a * 10 + ((c.toNat : Int) - 48)) 0

/-- Model of the JavaScript Number conversion on the strings the probe
handles: a string of decimal digits parses to the corresponding integer,
the empty string parses to 0 (as Number does), and every other string is
NaN, modelled as none. Signs, whitespace, decimal points and exotic
numeric syntax are outside the fragment the probe queries exercise. -/
def jsNumber (s : String) : Option Int :=
  if s.data.all Char.isDigit then some (digitsVal s.data) else none

/-- Model of parseInt(s, 10): parses the longest leading run of decimal
digits; NaN (none) when there is none. Leading whitespace and signs are
outside the modelled fragment. -/
def jsParseInt (s : String) : Option Int :=
  let ds := s.data.takeWhile Char.isDigit
  if ds.isEmpty then none else some (digitsVal ds)

/-- Model of parseFloat on the version strings the probe reads
(for example 1.0, 1.1, 2.0): integer part, optional fractional part;
NaN (none) otherwise. -/
def jsParseFloat (s : String) : Option Rat :=
  match s.data.span (fun c => c ≠ '.') with
  | (intPart, []) =>
      if intPart.all Char.isDigit ∧ ¬ intPart.isEmpty then some ((digitsVal intPart : Rat))
      else none
  | (intPart, _ :: fracPart) =>
      if ((intPart.all Char.isDigit ∧ ¬ intPart.isEmpty) ∧ fracPart.all Char.isDigit) ∧
          fracPart.all (fun c => c ≠ '.') then
        some ((digitsVal intPart : Rat) + (digitsVal fracPart : Rat) / ((10 : Rat) ^ fracPart.length))
      else none

/-- The JavaScript or-else idiom a or b on an optional number a: undefined
and 0 are falsy, every other number is itself. -/
def jsOr (a : Option Int) (b : Int) : Int :=
  match a with
  | none => b
  | some x => if x == 0 then b else x

/-- JavaScript truthiness of an optional number: undefined and 0 are
falsy. -/
def jsFalsyNum : Option Int → Bool
  | none => true
  | some x => x == 0

/-- Whether the first list is a prefix of the second. -/
def prefixEq : List Char → List Char → Bool
  | [], _ => true
  | _ :: _, [] => false
  | a :: as, b :: bs => a == b && prefixEq as bs

/-- Whether the pattern occurs as a contiguous sublist. -/
def findSub (pat : List Char) : List Char → Bool
  | [] => pat.isEmpty
  | c :: rest => prefixEq pat (c :: rest) || findSub pat rest

/-- Model of body.match(new RegExp(pattern)) restricted to literal
patterns: a substring search returning the matched text. No claim
exercises regular-expression metacharacters. -/
def jsRegexFind (pattern s : String) : Option String :=
  if findSub pattern.data s.data then some pattern else none

/-- Splits a list at the first occurrence of the pattern: the part before
it and the part after it; none when the pattern does not occur. -/
def breakOn (pat : List Char) : List Char → Option (List Char × List Char)
  | [] => if pat.isEmpty then some ([], []) else none
  | c :: rest =>
      if prefixEq pat (c :: rest) then some ([], (c :: rest).drop pat.length)
      else match breakOn pat rest with
           | some (pre, post) => some (c :: pre, post)
           | none => none

/-- Parsed URL object: the protocol, host and pathname components used by
src/src/probes/http.js (lines 17 and 196 to 207). -/
structure UrlObj where
  protocol : Option String
  host : Option String
  pathname : Option String
deriving DecidableEq

/-- Model of the legacy Node url.parse at the platform boundary. It splits
scheme://host/pathname, lower-casing the scheme and keeping a colon, and
throws (here Except.error) on a malformed bracketed host such as
http://[ with no closing bracket; spec section 7 case (c) relies on this
fallibility for malformed expectation input. Strings with no
scheme separator parse with null protocol and host, the whole string as
pathname, as the legacy parser does. -/
def urlParse (s : String) : Except String UrlObj :=
  match breakOn [':', '/', '/'] s.data with
  | none =>
      .ok { protocol := none, host := none
          , pathname := if s.data.isEmpty then none else some s }
  | some (scheme, tail) =>
      let host := tail.takeWhile (fun c => c ≠ '/')
      let path := tail.drop host.length
      if (match host with | '[' :: hs => !(hs.contains ']') | _ => false) then
        .error ("Invalid URL: " ++ s)
      else
        .ok { protocol := some (String.mk (scheme.map Char.toLower) ++ ":")
            , host := some (String.mk host)
            , pathname := if path.isEmpty then none else some (String.mk path) }

/-- Model of url.format restricted to the three components the probe
stores; only used inside the detail fields of one failure record. -/
def urlFormat (u : UrlObj) : String :=
  (u.protocol.getD "") ++
  (match u.host with | some h => "//" ++ h | none => "") ++
  (u.pathname.getD "")

/-! ## Data model -/

/-- A query-string value as delivered by the HTTP layer: a single string
or an array of strings. -/
inductive QVal
  | s (v : String)
  | a (vs : List String)
deriving DecidableEq

/-- From src/src/utils.ts toArray: undefined becomes the empty list, an
array stays itself, a single value becomes a one-element list. -/
def toArrayQ : Option QVal → List String
  | none => []
  | some (.s v) => [v]
  | some (.a vs) => vs

/-- The query parameters read by src/src/probes/http.js. Fields the code
reads as scalars are optional strings; fields it passes through toArray
or isArray are optional string-or-array values. -/
structure Query where
  method : Option String := none
  followRedirects : Option String := none
  allowUnauthorized : Option String := none
  expectHttpRedirects : Option String := none
  expectHttpRedirectTo : Option String := none
  expectHttpResponseBodyMatch : Option QVal := none
  expectHttpResponseBodyMismatch : Option QVal := none
  expectHttpSecure : Option QVal := none
  expectHttpStatusCode : Option QVal := none
  expectHttpVersion : Option String := none
deriving DecidableEq

/-- Metric values: numbers (including the NaN produced by failed numeric
parses), booleans, strings, string arrays and null. -/
inductive MVal
  | null
  | nan
  | num (q : Rat)
  | bool (b : Bool)
  | str (v : String)
  | strs (vs : List String)
deriving DecidableEq

/-- A metric record: name, unit-like type tag, value, description and
optional tag mapping. -/
structure Metric where
  name : String
  mtype : String
  value : MVal
  description : String
  tags : List (String × String) := []
deriving DecidableEq

/-- Modelled from the spec: buildMetric is imported by
src/src/probes/http.js from utils but is not under src. Spec section 3
defines a Metric as name, unit, value, description and an optional tag
mapping, so buildMetric is the plain record constructor. -/
def buildMetric (name mtype : String) (value : MVal) (description : String)
    (tags : List (String × String)) : Metric :=
  { name := name, mtype := mtype, value := value, description := description, tags := tags }

/-- From src/src/utils.ts Failure: cause, description, optional actual and
expected values. -/
structure Failure where
  cause : String
  description : String
  actual : Option MVal := none
  expected : Option MVal := none
deriving DecidableEq

/-- From src/src/utils.ts ProbeResult: failures, metrics, success. -/
structure ProbeResult where
  failures : List Failure
  metrics : List Metric
  success : Bool
deriving DecidableEq

/-- The request options recorded per leg by src/src/probes/http.js lines
15 to 21: method, the parsed target components, and the certificate
verification flag. The header mapping is omitted: parseHttpParamsQueryParam
is not under src and no claim depends on header handling. -/
structure ReqOptions where
  method : String
  protocol : Option String
  host : Option String
  pathname : Option String
  rejectUnauthorized : Bool
deriving DecidableEq

/-- The string-keyed counters that src/src/probes/http.js passes to
utils.increase. -/
inductive Counter
  | dnsLookup
  | tcpConnection
  | tlsHandshake
  | firstByte
  | contentTransfer
  | redirects
deriving DecidableEq

/-- The accumulator state threaded through the redirect recursion: the
requests issued so far plus one optional accumulated number per counter
key (a JavaScript object field that is absent until first increased). -/
structure ProbeState where
  requests : List ReqOptions := []
  dnsLookup : Option Int := none
  tcpConnection : Option Int := none
  tlsHandshake : Option Int := none
  firstByte : Option Int := none
  contentTransfer : Option Int := none
  redirects : Option Int := none
deriving DecidableEq

/-- From src/src/utils.ts increase: counters[key] = (counters[key] or 0) + n.
For numbers the or-default only changes the absent case, since the only
falsy number 0 is its own default. -/
def increase (st : ProbeState) (key : Counter) (n : Int) : ProbeState :=
  match key with
  | .dnsLookup => { st with dnsLookup := some (st.dnsLookup.getD 0 + n) }
  | .tcpConnection => { st with tcpConnection := some (st.tcpConnection.getD 0 + n) }
  | .tlsHandshake => { st with tlsHandshake := some (st.tlsHandshake.getD 0 + n) }
  | .firstByte => { st with firstByte := some (st.firstByte.getD 0 + n) }
  | .contentTransfer => { st with contentTransfer := some (st.contentTransfer.getD 0 + n) }
  | .redirects => { st with redirects := some (st.redirects.getD 0 + n) }

/-! ## Network legs

One leg is one request/response exchange. The transport guarantees the
socket lifecycle order lookup, connect, secureConnect (spec section 5), so
the socket milestones reached before a transport failure form a prefix of
that order, and a leg that produced a response always reached connect. -/

/-- Socket milestones reached on one leg, in lifecycle order. The lookup
event only fires when a DNS resolution happens, the secureConnect event
only on TLS targets. -/
inductive SockProgress
  | idle
  | dns (dnsAt : Int)
  | conn (dnsAt : Option Int) (tcpAt : Int)
  | tls (dnsAt : Option Int) (tcpAt : Int) (tlsAt : Int)
deriving DecidableEq

/-- A leg that produced a response: socket milestone times, the times of
the readable events, the end-of-response time, and the response fields the
probe reads. -/
structure RespLeg where
  startAt : Int
  dnsLookupAt : Option Int := none
  tcpConnectionAt : Int
  tlsHandshakeAt : Option Int := none
  readableTimes : List Int
  endAt : Int
  statusCode : Int
  httpVersion : String := "1.1"
  location : Option String := none
  contentLength : Option String := none
  body : String := ""
  certExpiry : Option String := none
deriving DecidableEq

/-- A leg that ended in a transport failure after reaching some socket
milestones. -/
structure ErrLeg where
  startAt : Int
  sock : SockProgress := .idle
  certExpiry : Option String := none
deriving DecidableEq

/-- One scripted network leg. -/
inductive Leg
  | resp (r : RespLeg)
  | err (e : ErrLeg)
deriving DecidableEq

/-- The terminal response view consumed by the validators and the metric
assembler. -/
structure Res where
  statusCode : Int
  httpVersion : String
  contentLength : Option String
  body : String
deriving DecidableEq

def RespLeg.toRes (r : RespLeg) : Res :=
  { statusCode := r.statusCode, httpVersion := r.httpVersion
  , contentLength := r.contentLength, body := r.body }

def RespLeg.sock (r : RespLeg) : SockProgress :=
  match r.tlsHandshakeAt with
  | some l => .tls r.dnsLookupAt r.tcpConnectionAt l
  | none => .conn r.dnsLookupAt r.tcpConnectionAt

/-- The socket handlers of src/src/probes/http.js lines 62 to 77: each
milestone adds its interval into the corresponding accumulator, the
connect interval starting from the lookup time or the leg start
(JavaScript or-else), the TLS interval from the connect time. -/
def applySock (startAt : Int) (sock : SockProgress) (st : ProbeState) : ProbeState :=
  match sock with
  | .idle => st
  | .dns d => increase st .dnsLookup (d - startAt)
  | .conn d t =>
      let st1 := match d with
        | some dv => increase st .dnsLookup (dv - startAt)
        | none => st
      increase st1 .tcpConnection (t - jsOr d startAt)
  | .tls d t l =>
      let st1 := match d with
        | some dv => increase st .dnsLookup (dv - startAt)
        | none => st
      let st2 := increase st1 .tcpConnection (t - jsOr d startAt)
      increase st2 .tlsHandshake (l - t)

/-- The readable handler of src/src/probes/http.js lines 34 to 41, folded
over the readable events of one leg: while state.firstByte is undefined,
record the per-leg first-byte time and add the first-byte interval
(measured from the TLS handshake time or-else the TCP connect time) into
the accumulator. Returns the per-leg times.firstByteAt and the state. -/
def applyReadables (base : Int) (ts : List Int) (fbAt : Option Int) (st : ProbeState) :
    Option Int × ProbeState :=
  match ts with
  | [] => (fbAt, st)
  | t :: rest =>
      if st.firstByte.isNone then
        applyReadables base rest (some t) (increase st .firstByte (t - base))
      else
        applyReadables base rest fbAt st

/-- Full response-leg processing: socket handlers, then the readable
events, then the end handler of lines 48 to 51, which adds the content
transfer interval only when this legs times.firstByteAt was set. -/
def processRespLeg (r : RespLeg) (st : ProbeState) : ProbeState :=
  let st1 := applySock r.startAt r.sock st
  let pr := applyReadables (jsOr r.tlsHandshakeAt r.tcpConnectionAt) r.readableTimes none st1
  match pr.1 with
  | some fb => increase pr.2 .contentTransfer (r.endAt - fb)
  | none => pr.2

/-! ## Validators (src/src/probes/http.js lines 159 to 300) -/

/-- Lines 161 to 166: the redirect expectation is expectHttpRedirects if
supplied, otherwise the string yes if a truthy (non-empty) redirect
target is supplied. -/
def expectedRedirectsParam (q : Query) : Option String :=
  match q.expectHttpRedirects with
  | some s => some s
  | none => if (q.expectHttpRedirectTo.getD "").isEmpty then none else some "yes"

def mkRedirectCountFailure (c : Int) (st : ProbeState) : Failure :=
  { cause := "invalidHttpRedirectCount"
  , description := "Expected the HTTP request to be redirected exactly " ++ toString c ++
      (if c ≠ 1 then " times" else " time")
  , actual := st.redirects.map (fun r => .num (r : Rat))
  , expected := some (.num (c : Rat)) }

def mkMissingRedirectFailure : Failure :=
  { cause := "missingHttpRedirect"
  , description := "Expected the server to send an HTTP redirection" }

def mkUnexpectedRedirectFailure (st : ProbeState) : Failure :=
  { cause := "unexpectedHttpRedirect"
  , description := "Did not expect the server to send an HTTP redirection"
  , actual := st.redirects.map (fun r => .num (r : Rat))
  , expected := some (.num 0) }

/-- Lines 178 to 191: the boolean-style redirect check on the redirect
expectation string, with JavaScript truthiness on the counter. -/
def redirectsBoolCheck (expectedRedirects : Option String) (st : ProbeState)
    (failures : List Failure) : List Failure :=
  match parseBooleanQueryParam expectedRedirects none with
  | some true =>
      if jsFalsyNum st.redirects then failures ++ [mkMissingRedirectFailure] else failures
  | some false =>
      if !(jsFalsyNum st.redirects) then failures ++ [mkUnexpectedRedirectFailure st]
      else failures
  | none => failures

/-- Lines 159 to 192: the exact-count check uses the JavaScript strict
inequality of the possibly-undefined counter against the parsed count
(undefined is different from every number), then falls through to the
boolean-style check when the count matched or did not parse. -/
def validateHttpRedirects (q : Query) (st : ProbeState) (failures : List Failure) :
    List Failure :=
  let expectedRedirects := expectedRedirectsParam q
  match expectedRedirects.bind jsNumber with
  | some c =>
      if st.redirects ≠ some c then failures ++ [mkRedirectCountFailure c st]
      else redirectsBoolCheck expectedRedirects st failures
  | none => redirectsBoolCheck expectedRedirects st failures

def mkRedirectTargetFailure (q : Query) (lastReq : ReqOptions) (exp : UrlObj) : Failure :=
  { actual := some (.str (urlFormat
      { protocol := lastReq.protocol, host := lastReq.host, pathname := lastReq.pathname }))
  , cause := "invalidHttpRedirectLocation"
  , description := "Expected the request to be redirected to " ++ (q.expectHttpRedirectTo.getD "")
  , expected := some (.str (urlFormat exp)) }

/-- Lines 194 to 210: parses the expected redirect URL (a parse failure
propagates, it is not caught anywhere in getHttpMetrics) and compares
protocol, host and pathname against the last issued request. -/
def validateHttpRedirectTarget (q : Query) (st : ProbeState) (failures : List Failure) :
    Except String (List Failure) :=
  match q.expectHttpRedirectTo with
  | none => .ok failures
  | some u =>
      match urlParse u with
      | .error e => .error e
      | .ok exp =>
          match st.requests.getLast? with
          | none => .error "TypeError: cannot read property of undefined"
          | some lastReq =>
              if exp.protocol ≠ lastReq.protocol ∨ exp.host ≠ lastReq.host ∨
                  exp.pathname ≠ lastReq.pathname then
                .ok (failures ++ [mkRedirectTargetFailure q lastReq exp])
              else .ok failures

def mkBodyMatchFailure (p : String) : Failure :=
  { cause := "httpResponseBodyMismatch"
  , description := "Expected the HTTP response body to match the following regular expression: " ++ p
  , expected := some (.str p) }

def mkBodyMismatchFailure (p m : String) : Failure :=
  { cause := "unexpectedHttpResponseBodyMatch"
  , description := "Did not expect the HTTP response body to match the following regular expression: " ++ p
  , actual := some (.str m)
  , expected := some (.str p) }

/-- Lines 216 to 224: every must-match pattern that fails to match yields
one failure. -/
def bodyMatchLoop (body : String) (ps : List String) (failures : List Failure) : List Failure :=
  match ps with
  | [] => failures
  | p :: rest =>
      bodyMatchLoop body rest
        (if (jsRegexFind p body).isNone then failures ++ [mkBodyMatchFailure p] else failures)

/-- Lines 226 to 236: every must-not-match pattern that matches yields one
failure carrying the matched text. -/
def bodyMismatchLoop (body : String) (ps : List String) (failures : List Failure) :
    List Failure :=
  match ps with
  | [] => failures
  | p :: rest =>
      bodyMismatchLoop body rest
        (match jsRegexFind p body with
         | some m => failures ++ [mkBodyMismatchFailure p m]
         | none => failures)

/-- Lines 212 to 237. -/
def validateHttpResponseBody (q : Query) (res : Res) (failures : List Failure) :
    List Failure :=
  bodyMismatchLoop res.body (toArrayQ q.expectHttpResponseBodyMismatch)
    (bodyMatchLoop res.body (toArrayQ q.expectHttpResponseBodyMatch) failures)

def mkInsecureFailure : Failure :=
  { cause := "insecureHttp"
  , description := "Expected the server to use SSL/TLS for the request (or final redirect)" }

def mkUnexpectedlySecureFailure : Failure :=
  { cause := "unexpectedlySecureHttp"
  , description := "Did not expect the server to use SSL/TLS for the request (or final redirect)" }

/-- Lines 239 to 252: the tri-state secure expectation is parsed from the
last element of the expectHttpSecure value coerced to an array, and is
compared against whether a TLS handshake was accumulated anywhere in the
chain. -/
def validateHttpSecurity (q : Query) (st : ProbeState) (failures : List Failure) :
    List Failure :=
  match parseBooleanQueryParam (toArrayQ q.expectHttpSecure).getLast? none with
  | some true =>
      if st.tlsHandshake.isNone then failures ++ [mkInsecureFailure] else failures
  | some false =>
      if st.tlsHandshake.isSome then failures ++ [mkUnexpectedlySecureFailure] else failures
  | none => failures

/-- Line 267: the class pattern is an anchored case-insensitive match of
one digit 1 to 5 followed by xx. -/
def statusClassDigit (code : String) : Option Nat :=
  match code.data with
  | [d, x1, x2] =>
      if ('1' ≤ d ∧ d ≤ '5') ∧ (x1 = 'x' ∨ x1 = 'X') ∧ (x2 = 'x' ∨ x2 = 'X') then
        some (d.toNat - 48)
      else none
  | _ => none

/-- Lines 262 to 279, one loop entry: the entry matches when it is a class
whose hundred-range contains the actual code, or a numeric literal equal
to it. -/
def statusEntryMatches (code : String) (actual : Int) : Bool :=
  (match statusClassDigit code with
   | some n => decide (100 * (n : Int) ≤ actual ∧ actual ≤ 100 * (n : Int) + 99)
   | none => false) ||
  (match jsNumber code with
   | some m => m == actual
   | none => false)

/-- The early-return loop of lines 262 to 279. -/
def statusCodeLoop (actual : Int) : List String → Bool
  | [] => false
  | c :: rest => if statusEntryMatches c actual then true else statusCodeLoop actual rest

/-- Lines 257 to 260: the expected list is the supplied array, or the
supplied scalar compacted (lodash compact drops the empty string), with
the default classes 2xx and 3xx when empty. -/
def expectedStatusEntries (q : Query) : List String :=
  let expected := match q.expectHttpStatusCode with
    | some (.a vs) => vs
    | some (.s v) => if v.isEmpty then [] else [v]
    | none => []
  if expected.isEmpty then ["2xx", "3xx"] else expected

/-- The failure of lines 281 to 286, built from the query AS READ AFTER
the validator ran: line 285 evaluates toArray of
ctx.query.expectHttpStatusCode after the push of line 259 may have
mutated it, and the joined description list of line 284 equals the
defaulted entry list of that post-mutation query in every case. -/
def mkStatusCodeFailure (q : Query) (res : Res) : Failure :=
  { actual := some (.num (res.statusCode : Rat))
  , cause := "invalidHttpStatusCode"
  , description := "Expected HTTP status code to match one of the following: " ++
      String.intercalate ", " (expectedStatusEntries q)
  , expected := some (.strs (toArrayQ q.expectHttpStatusCode)) }

/-- The in-place mutation of ctx.query performed by lines 257 to 259: when
expectHttpStatusCode is supplied as an array, the local expected list
aliases it, and when that array is empty the push of the default classes
writes 2xx and 3xx into the query itself. A scalar (or absent) value goes
through a fresh lodash compact copy, so the push leaves the query
unchanged. -/
def statusCodeQueryAfter (q : Query) : Query :=
  match q.expectHttpStatusCode with
  | some (.a []) => { q with expectHttpStatusCode := some (.a ["2xx", "3xx"]) }
  | _ => q

/-- Lines 254 to 287: returns the appended failures together with the
query as left behind by the aliasing push of line 259 (the validator is
the one place in the set that mutates its inputs). -/
def validateHttpStatusCode (q : Query) (res : Res) (failures : List Failure) :
    List Failure × Query :=
  let q1 := statusCodeQueryAfter q
  if statusCodeLoop res.statusCode (expectedStatusEntries q) then (failures, q1)
  else (failures ++ [mkStatusCodeFailure q1 res], q1)

def mkVersionFailure (e : String) (res : Res) : Failure :=
  { actual := some (.str res.httpVersion)
  , cause := "invalidHttpVersion"
  , description := "Expected HTTP version to be \"" ++ e ++ "\""
  , expected := some (match jsParseFloat e with | some v => .num v | none => .nan) }

/-- Lines 289 to 300: the guard uses JavaScript truthiness of the
expectation (the empty string is falsy), then an exact string
comparison. -/
def validateHttpVersion (q : Query) (res : Res) (failures : List Failure) : List Failure :=
  match q.expectHttpVersion with
  | none => failures
  | some e =>
      if e.isEmpty then failures
      else if res.httpVersion ≠ e then failures ++ [mkVersionFailure e res]
      else failures

/-! ## Metric assembly (src/src/probes/http.js lines 87 to 157) -/

def mkDurationMetric (phase : String) (v : Int) : Metric :=
  buildMetric "httpDuration" "seconds" (.num ((v : Rat) / 1000))
    "Duration of the HTTP request(s) by phase, summed over all redirects, in seconds"
    [("phase", phase)]

/-- The key order of the lodash pick on line 117. -/
def durationPairs (st : ProbeState) : List (String × Option Int) :=
  [ ("contentTransfer", st.contentTransfer)
  , ("dnsLookup", st.dnsLookup)
  , ("firstByte", st.firstByte)
  , ("tcpConnection", st.tcpConnection)
  , ("tlsHandshake", st.tlsHandshake) ]

/-- One duration metric per phase key present on the state, in pick
order. -/
def durList : List (String × Option Int) → List Metric
  | [] => []
  | (_, none) :: rest => durList rest
  | (ph, some v) :: rest => mkDurationMetric ph v :: durList rest

def durationMetrics (st : ProbeState) : List Metric := durList (durationPairs st)

/-- Lines 110 to 115: null unless a response with a truthy (non-empty)
content-length header exists, in which case parseInt of the header, whose
NaN is a value of its own, not null. -/
def contentLengthValue (res : Option Res) : MVal :=
  match res with
  | none => .null
  | some r =>
      match r.contentLength with
      | none => .null
      | some s =>
          if s.isEmpty then .null
          else match jsParseInt s with
               | some n => .num (n : Rat)
               | none => .nan

/-- The metric list of lines 103 to 154, in emission order. The
certificate expiry string stands for the formatted valid-to date of the
peer certificate when one is available (the moment formatting is collapsed
to an opaque string at the platform boundary). -/
def assembleMetrics (res : Option Res) (st : ProbeState) (certExpiry : Option String) :
    List Metric :=
  [ buildMetric "httpCertificateExpiry" "datetime"
      (match certExpiry with | some s => .str s | none => .null)
      "Expiration date of the SSL certificate" []
  , buildMetric "httpContentLength" "bytes" (contentLengthValue res)
      "Length of the HTTP response entity in bytes" [] ]
  ++ durationMetrics st ++
  [ buildMetric "httpRedirects" "quantity" (.num ((st.redirects.getD 0 : Int) : Rat))
      "Number of times HTTP 301 or 302 redirects were followed" []
  , buildMetric "httpSecure" "boolean" (.bool st.tlsHandshake.isSome)
      "Indicates whether SSL/TLS was used for the final request" []
  , buildMetric "httpStatusCode" "number"
      (match res with | some r => .num (r.statusCode : Rat) | none => .null)
      "HTTP status code of the final response" []
  , buildMetric "httpVersion" "number"
      (match res with
       | some r => (match jsParseFloat r.httpVersion with | some v => .num v | none => .nan)
       | none => .null)
      "HTTP version of the response" [] ]

/-- The six validator calls of lines 92 to 99, run only when a response
exists, in source order; the redirect-target validator may throw, which
aborts validation and metric assembly. The status-code validator can
mutate ctx.query (the aliasing push of line 259), so the run returns the
failures together with the query as the set leaves it; the version
validator, which runs after, reads that post-mutation query. -/
def runValidators (q : Query) (res : Res) (st : ProbeState) (failures : List Failure) :
    Except String (List Failure × Query) :=
  match validateHttpRedirectTarget q st (validateHttpRedirects q st failures) with
  | .error e => .error e
  | .ok f2 =>
      let pr := validateHttpStatusCode q res
          (validateHttpSecurity q st
            (validateHttpResponseBody q res f2))
      .ok (validateHttpVersion pr.2 res pr.1, pr.2)

/-- Lines 87 to 157: validators run only if a response exists, success is
response-present and no failures, metrics are always assembled (the
assembly reads no query field, so the validator-set query mutation does
not feed it). -/
def getHttpMetrics (q : Query) (res : Option Res) (st : ProbeState)
    (certExpiry : Option String) : Except String ProbeResult :=
  match res with
  | none =>
      .ok { failures := [], metrics := assembleMetrics none st certExpiry, success := false }
  | some r =>
      match runValidators q r st [] with
      | .error e => .error e
      | .ok pr =>
          .ok { failures := pr.1
              , metrics := assembleMetrics (some r) st certExpiry
              , success := pr.1.isEmpty }

/-! ## The probe chain (src/src/probes/http.js lines 9 to 85) -/

/-- Line 12: the follow-redirects flag, default true. -/
def followRedirectsFlag (q : Query) : Bool :=
  parseBooleanQueryParam q.followRedirects (some true) == some true

/-- Lines 15 to 21: method defaults to GET (JavaScript or-else, the empty
string is falsy), the parsed target components are spread in, certificate
verification is enabled unless allowUnauthorized parses truthy. -/
def mkReqOptions (q : Query) (u : UrlObj) : ReqOptions :=
  { method := match q.method with | some m => if m.isEmpty then "GET" else m | none => "GET"
  , protocol := u.protocol
  , host := u.host
  , pathname := u.pathname
  , rejectUnauthorized := !((parseBooleanQueryParam q.allowUnauthorized none).getD false) }

/-- The probe over a scripted list of network legs: each recursive call
consumes the next leg the environment would produce for the requested
target. Parsing the target happens first (line 17) and a parse failure
propagates; the request descriptor is appended to the state; an error leg
resolves through getHttpMetrics with no response; a response leg is timed,
then either followed (flag true and status in 301 to 302, line 53:
increment the redirect counter and recurse on the location header with the
same state) or terminal. A chain that would issue more requests than the
script provides is undetermined (none); following a redirect whose
location header is absent makes the recursive url.parse throw. -/
def probeHttp (q : Query) (target : String) (legs : List Leg) (st : ProbeState) :
    Option (Except String ProbeResult) :=
  match legs with
  | [] => none
  | leg :: rest =>
      match urlParse target with
      | .error e => some (.error e)
      | .ok u =>
          let st0 : ProbeState := { st with requests := st.requests ++ [mkReqOptions q u] }
          match leg with
          | .err e =>
              some (getHttpMetrics q none (applySock e.startAt e.sock st0) e.certExpiry)
          | .resp r =>
              let st1 := processRespLeg r st0
              if followRedirectsFlag q ∧ 301 ≤ r.statusCode ∧ r.statusCode ≤ 302 then
                match r.location with
                | some loc => probeHttp q loc rest (increase st1 .redirects 1)
                | none => some (.error "TypeError: url must be a string")
              else
                some (getHttpMetrics q (some r.toRes) st1 r.certExpiry)

/-! ## Observation helpers for the claims -/

/-- The predicate selecting a metric by name and tag mapping. -/
def mvPred (name : String) (tags : List (String × String)) (m : Metric) : Bool :=
  decide (m.name = name ∧ m.tags = tags)

/-- The value of the metric with the given name and tags in an outcome,
none when no such metric was emitted. -/
def metricValue (name : String) (tags : List (String × String)) (out : ProbeResult) :
    Option MVal :=
  (out.metrics.find? (mvPred name tags)).map Metric.value

/-- Projects the successful outcome out of a probe run (dummy outcome on
the other cases), used to state closed witnesses. -/
def probeOut (o : Option (Except String ProbeResult)) : ProbeResult :=
  match o with
  | some (.ok r) => r
  | _ => { failures := [], metrics := [], success := false }

/-- Specification-side count of the redirect legs the probe follows: the
leading response legs with status in 301 to 302 while the follow-redirects
flag holds. -/
def numFollowed (follow : Bool) : List Leg → Int
  | [] => 0
  | .err _ :: _ => 0
  | .resp r :: rest =>
      if follow ∧ 301 ≤ r.statusCode ∧ r.statusCode ≤ 302 then
        1 + numFollowed follow rest
      else 0

/-- Projects the value out of a successful metric assembly (dummy outcome
on an error), used to state closed witnesses. -/
def exceptOut (o : Except String ProbeResult) : ProbeResult :=
  match o with
  | .ok r => r
  | .error _ => { failures := [], metrics := [], success := false }

/-- Specification-side wording of claim C6: the latest of the TLS
handshake completion, the TCP connect completion and the leg start, over
the milestones that are present. -/
def latestOf (r : RespLeg) : Int :=
  match r.tlsHandshakeAt with
  | some l => max l (max r.tcpConnectionAt r.startAt)
  | none => max r.tcpConnectionAt r.startAt

/-- Specification-side wording of the amended claim C5: with an explicit
numeric expected count c, a failure is produced unless the redirect
counter holds exactly c, the counter being absent (undefined) until a
first redirect is followed, so that expected count 0 always fails; with a
boolean-style expectation (including the implied yes of a supplied
redirect target), at least one (respectively no) followed redirect is
required, an absent or zero counter counting as none. -/
def redirectCheckSpec (q : Query) (st : ProbeState) : List Failure :=
  match expectedRedirectsParam q with
  | none => []
  | some s =>
      match jsNumber s with
      | some c =>
          if st.redirects = some c then [] else [mkRedirectCountFailure c st]
      | none =>
          match parseBooleanQueryParam (some s) none with
          | some true =>
              match st.redirects with
              | none => [mkMissingRedirectFailure]
              | some r => if r = 0 then [mkMissingRedirectFailure] else []
          | some false =>
              match st.redirects with
              | none => []
              | some r => if r = 0 then [] else [mkUnexpectedRedirectFailure st]
          | none => []

/-- Specification-side wording of the amended claim C7: the content-length
metric value is null when the header is missing or empty, the parsed
integer when the header parses, and the NaN value (not null) when a
non-empty header does not parse. -/
def contentLengthSpec : Option String → MVal
  | none => .null
  | some s =>
      if s.isEmpty then .null
      else match jsParseInt s with
           | some n => .num (n : Rat)
           | none => .nan

/-! ## Concrete legs and chains used by witnesses and counterexamples -/

/-- A plain HTTP redirect leg: connect at 10, first readable at 20, end of
response at 30, status 301 towards another host. -/
def legA1 : RespLeg :=
  { startAt := 1, tcpConnectionAt := 10, readableTimes := [20, 25], endAt := 30
  , statusCode := 301, location := some "http://b/" }

/-- A plain terminal leg: connect at 50, first readable at 60, end of
response at 80, status 200. -/
def legA2 : RespLeg :=
  { startAt := 40, tcpConnectionAt := 50, readableTimes := [60], endAt := 80
  , statusCode := 200 }

/-- A two-leg chain: one followed redirect, then a terminal 200. -/
def chainA : List Leg := [.resp legA1, .resp legA2]

/-- A single-leg chain answering 200 immediately. -/
def chainB : List Leg := [.resp legA2]

/-- A plain terminal response record used by validator-level witnesses. -/
def resB : Res := { statusCode := 200, httpVersion := "1.1", contentLength := none, body := "" }

/-- A terminal response carrying an unparsable content-length header. -/
def resCL : Res :=
  { statusCode := 200, httpVersion := "1.1", contentLength := some "abc", body := "" }

/-! ## Preservation lemmas for the state accumulators -/

theorem increase_redirects_other (st : ProbeState) (k : Counter) (n : Int) (h : k ≠ .redirects) :
    (increase st k n).redirects = st.redirects := by
  cases k <;> simp [increase] at h ⊢

theorem increase_firstByte_other (st : ProbeState) (k : Counter) (n : Int) (h : k ≠ .firstByte) :
    (increase st k n).firstByte = st.firstByte := by
  cases k <;> simp [increase] at h ⊢

theorem applySock_redirects (a : Int) (s : SockProgress) (st : ProbeState) :
    (applySock a s st).redirects = st.redirects := by
  cases s with
  | idle => rfl
  | dns d => rfl
  | conn d t => cases d <;> rfl
  | tls d t l => cases d <;> rfl

theorem applySock_firstByte (a : Int) (s : SockProgress) (st : ProbeState) :
    (applySock a s st).firstByte = st.firstByte := by
  cases s with
  | idle => rfl
  | dns d => rfl
  | conn d t => cases d <;> rfl
  | tls d t l => cases d <;> rfl

theorem applyReadables_redirects (b : Int) (ts : List Int) (fb : Option Int) (st : ProbeState) :
    (applyReadables b ts fb st).2.redirects = st.redirects := by
  induction ts generalizing fb st with
  | nil => rfl
  | cons t rest ih =>
      simp only [applyReadables]
      by_cases h : st.firstByte.isNone
      · rw [if_pos h, ih]
        simp [increase]
      · rw [if_neg h]
        exact ih fb st

theorem applyReadables_of_firstByte_some (b : Int) (ts : List Int) (fb : Option Int)
    (st : ProbeState) (v : Int) (h : st.firstByte = some v) :
    applyReadables b ts fb st = (fb, st) := by
  cases ts with
  | nil => rfl
  | cons t rest =>
      simp only [applyReadables, h, Option.isNone_some, Bool.false_eq_true, if_false]
      exact applyReadables_of_firstByte_some b rest fb st v h

theorem applyReadables_of_firstByte_none (b : Int) (t : Int) (ts : List Int)
    (st : ProbeState) (h : st.firstByte = none) :
    applyReadables b (t :: ts) none st = (some t, increase st .firstByte (t - b)) := by
  have h1 : (increase st .firstByte (t - b)).firstByte = some (0 + (t - b)) := by
    simp [increase, h]
  simp only [applyReadables, h, Option.isNone_none, if_true]
  exact applyReadables_of_firstByte_some b ts (some t) _ _ h1

theorem processRespLeg_redirects (r : RespLeg) (st : ProbeState) :
    (processRespLeg r st).redirects = st.redirects := by
  simp only [processRespLeg]
  rcases hp : (applyReadables (jsOr r.tlsHandshakeAt r.tcpConnectionAt) r.readableTimes none
      (applySock r.startAt r.sock st)) with ⟨fb, st2⟩
  have h2 : st2.redirects = st.redirects := by
    have := applyReadables_redirects (jsOr r.tlsHandshakeAt r.tcpConnectionAt)
      r.readableTimes none (applySock r.startAt r.sock st)
    rw [hp] at this
    simpa [applySock_redirects] using this
  cases fb with
  | none => simpa using h2
  | some v =>
      simp only []
      rw [increase_redirects_other _ Counter.contentTransfer _ (by simp)]
      exact h2

theorem processRespLeg_firstByte_some (r : RespLeg) (st : ProbeState) (v : Int)
    (h : st.firstByte = some v) : (processRespLeg r st).firstByte = some v := by
  simp only [processRespLeg]
  have hs : (applySock r.startAt r.sock st).firstByte = some v := by
    rw [applySock_firstByte]; exact h
  rw [applyReadables_of_firstByte_some _ _ _ _ _ hs]
  simpa using hs

theorem processRespLeg_firstByte_first (r : RespLeg) (st : ProbeState) (t : Int) (ts : List Int)
    (h : st.firstByte = none) (hr : r.readableTimes = t :: ts) :
    (processRespLeg r st).firstByte =
      some (t - jsOr r.tlsHandshakeAt r.tcpConnectionAt) := by
  simp only [processRespLeg]
  have hs : (applySock r.startAt r.sock st).firstByte = none := by
    rw [applySock_firstByte]; exact h
  rw [hr, applyReadables_of_firstByte_none _ _ _ _ hs]
  simp only []
  rw [increase_firstByte_other _ Counter.contentTransfer _ (by simp)]
  simp [increase, hs]

/-! ## Lookup lemmas for the assembled metric list -/

theorem durList_find?_off (p : String) (l : List (String × Option Int))
    (h : ∀ pr ∈ l, pr.1 ≠ p) :
    (durList l).find? (mvPred "httpDuration" [("phase", p)]) = none := by
  induction l with
  | nil => rfl
  | cons hd tl ih =>
      rcases hd with ⟨ph, ov⟩
      have hph : ph ≠ p := h (ph, ov) (List.mem_cons_self _ _)
      cases ov with
      | none => exact ih (fun pr hpr => h pr (List.mem_cons_of_mem _ hpr))
      | some v =>
          rw [durList, List.find?_cons_of_neg _
            (by simp [mvPred, mkDurationMetric, buildMetric, hph])]
          exact ih (fun pr hpr => h pr (List.mem_cons_of_mem _ hpr))

theorem durList_find?_other (nm : String) (tg : List (String × String))
    (l : List (String × Option Int)) (h : nm ≠ "httpDuration") :
    (durList l).find? (mvPred nm tg) = none := by
  induction l with
  | nil => rfl
  | cons hd tl ih =>
      rcases hd with ⟨ph, ov⟩
      cases ov with
      | none => exact ih
      | some v =>
          rw [durList, List.find?_cons_of_neg _
            (by simp [mvPred, mkDurationMetric, buildMetric]; intro hn; exact absurd hn.symm h)]
          exact ih

theorem assemble_find_redirects (res : Option Res) (st : ProbeState) (cert : Option String) :
    (assembleMetrics res st cert).find? (mvPred "httpRedirects" []) =
      some (buildMetric "httpRedirects" "quantity" (.num ((st.redirects.getD 0 : Int) : Rat))
        "Number of times HTTP 301 or 302 redirects were followed" []) := by
  simp only [assembleMetrics, durationMetrics, List.find?_append]
  rw [durList_find?_other _ _ _ (by decide)]
  simp [List.find?, mvPred, buildMetric]

theorem assemble_find_dur_firstByte (res : Option Res) (st : ProbeState) (cert : Option String) :
    (assembleMetrics res st cert).find? (mvPred "httpDuration" [("phase", "firstByte")]) =
      st.firstByte.map (mkDurationMetric "firstByte") := by
  obtain ⟨reqs, dns, tcp, tls, fb, ct, rd⟩ := st
  simp only [assembleMetrics, durationMetrics, durationPairs, List.find?_append]
  cases ct <;> cases dns <;> cases fb <;> cases tcp <;> cases tls <;>
    simp [durList, List.find?, mvPred, mkDurationMetric, buildMetric]

theorem assemble_find_dur_contentTransfer (res : Option Res) (st : ProbeState)
    (cert : Option String) :
    (assembleMetrics res st cert).find? (mvPred "httpDuration" [("phase", "contentTransfer")]) =
      st.contentTransfer.map (mkDurationMetric "contentTransfer") := by
  obtain ⟨reqs, dns, tcp, tls, fb, ct, rd⟩ := st
  simp only [assembleMetrics, durationMetrics, durationPairs, List.find?_append]
  cases ct <;> cases dns <;> cases fb <;> cases tcp <;> cases tls <;>
    simp [durList, List.find?, mvPred, mkDurationMetric, buildMetric]

theorem assemble_find_statusCode (res : Option Res) (st : ProbeState) (cert : Option String) :
    (assembleMetrics res st cert).find? (mvPred "httpStatusCode" []) =
      some (buildMetric "httpStatusCode" "number"
        (match res with | some r => .num (r.statusCode : Rat) | none => .null)
        "HTTP status code of the final response" []) := by
  simp only [assembleMetrics, durationMetrics, List.find?_append]
  rw [durList_find?_other _ _ _ (by decide)]
  simp [List.find?, mvPred, buildMetric]

theorem assemble_find_version (res : Option Res) (st : ProbeState) (cert : Option String) :
    (assembleMetrics res st cert).find? (mvPred "httpVersion" []) =
      some (buildMetric "httpVersion" "number"
        (match res with
         | some r => (match jsParseFloat r.httpVersion with | some v => .num v | none => .nan)
         | none => .null)
        "HTTP version of the response" []) := by
  simp only [assembleMetrics, durationMetrics, List.find?_append]
  rw [durList_find?_other _ _ _ (by decide)]
  simp [List.find?, mvPred, buildMetric]

theorem assemble_find_contentLength (res : Option Res) (st : ProbeState) (cert : Option String) :
    (assembleMetrics res st cert).find? (mvPred "httpContentLength" []) =
      some (buildMetric "httpContentLength" "bytes" (contentLengthValue res)
        "Length of the HTTP response entity in bytes" []) := by
  simp only [assembleMetrics, durationMetrics, List.find?_append]
  simp [List.find?, mvPred, buildMetric]

theorem assemble_find_certExpiry (res : Option Res) (st : ProbeState) (cert : Option String) :
    (assembleMetrics res st cert).find? (mvPred "httpCertificateExpiry" []) =
      some (buildMetric "httpCertificateExpiry" "datetime"
        (match cert with | some s => .str s | none => .null)
        "Expiration date of the SSL certificate" []) := by
  simp only [assembleMetrics, durationMetrics, List.find?_append]
  simp [List.find?, mvPred, buildMetric]

theorem assemble_find_secure (res : Option Res) (st : ProbeState) (cert : Option String) :
    (assembleMetrics res st cert).find? (mvPred "httpSecure" []) =
      some (buildMetric "httpSecure" "boolean" (.bool st.tlsHandshake.isSome)
        "Indicates whether SSL/TLS was used for the final request" []) := by
  simp only [assembleMetrics, durationMetrics, List.find?_append]
  rw [durList_find?_other _ _ _ (by decide)]
  simp [List.find?, mvPred, buildMetric]


/-! ## Claim C2 -/

theorem numFollowed_false (legs : List Leg) : numFollowed false legs = 0 := by
  cases legs with
  | nil => rfl
  | cons leg rest => cases leg <;> simp [numFollowed]

theorem probeHttp_redirects_inv (legs : List Leg) (q : Query) (target : String)
    (st : ProbeState) (out : ProbeResult)
    (h : probeHttp q target legs st = some (.ok out)) :
    metricValue "httpRedirects" [] out =
      some (.num ((st.redirects.getD 0 + numFollowed (followRedirectsFlag q) legs : Int) : Rat)) := by
  induction legs generalizing target st with
  | nil => simp [probeHttp] at h
  | cons leg rest ih =>
      rw [probeHttp] at h
      cases hu : urlParse target with
      | error e => rw [hu] at h; simp at h
      | ok u =>
          rw [hu] at h
          simp only [] at h
          cases leg with
          | err e =>
              simp only [getHttpMetrics, Option.some.injEq, Except.ok.injEq] at h
              subst h
              simp only [metricValue, assemble_find_redirects, Option.map_some, buildMetric]
              rw [applySock_redirects]
              simp [numFollowed]
          | resp r =>
              simp only [] at h
              by_cases hc : followRedirectsFlag q ∧ 301 ≤ r.statusCode ∧ r.statusCode ≤ 302
              · rw [if_pos hc] at h
                cases hl : r.location with
                | none => rw [hl] at h; simp at h
                | some loc =>
                    rw [hl] at h
                    have h2 := ih loc _ h
                    rw [h2]
                    have hval : (increase (processRespLeg r
                          { st with requests := st.requests ++ [mkReqOptions q u] })
                          .redirects 1).redirects.getD 0 +
                          numFollowed (followRedirectsFlag q) rest
                        = st.redirects.getD 0 +
                          numFollowed (followRedirectsFlag q) (.resp r :: rest) := by
                      simp only [increase, Option.getD_some, processRespLeg_redirects]
                      rw [numFollowed, if_pos hc]
                      have hrq : ({ st with requests := st.requests ++ [mkReqOptions q u] } :
                          ProbeState).redirects = st.redirects := rfl
                      rw [hrq]
                      ring
                    rw [hval]
              · rw [if_neg hc] at h
                simp only [getHttpMetrics] at h
                cases hv : runValidators q r.toRes
                    (processRespLeg r { st with requests := st.requests ++ [mkReqOptions q u] })
                    [] with
                | error e => rw [hv] at h; simp at h
                | ok pr =>
                    rw [hv] at h
                    simp only [Option.some.injEq, Except.ok.injEq] at h
                    subst h
                    simp only [metricValue, assemble_find_redirects, Option.map_some, buildMetric]
                    rw [processRespLeg_redirects]
                    have hrq : ({ st with requests := st.requests ++ [mkReqOptions q u] } :
                        ProbeState).redirects = st.redirects := rfl
                    rw [hrq, numFollowed, if_neg hc]
                    simp

/-- Claim C2: a redirect is followed exactly when the follow-redirects
flag (default true) holds and the status code is in 301 to 302, the
counter is incremented by one per followed leg on the same threaded state,
so the httpRedirects metric of a successful probe equals the number of
301 or 302 responses actually followed (numFollowed), and is 0 whenever
the flag is disabled, even if the target would redirect. -/
theorem redirects_metric_spec (q : Query) (target : String) (legs : List Leg)
    (out : ProbeResult) (h : probeHttp q target legs {} = some (.ok out)) :
    metricValue "httpRedirects" [] out =
      some (.num ((numFollowed (followRedirectsFlag q) legs : Int) : Rat)) ∧
    (followRedirectsFlag q = false → metricValue "httpRedirects" [] out = some (.num 0)) := by
  have h1 := probeHttp_redirects_inv legs q target {} out h
  constructor
  · simpa using h1
  · intro hf
    rw [hf] at h1
    simpa [numFollowed_false] using h1

/-- Witness for C2 on the concrete two-leg chain: one followed redirect. -/
theorem redirects_metric_spec_witness :
    metricValue "httpRedirects" [] (probeOut (probeHttp {} "http://a/" chainA {})) =
      some (.num ((numFollowed (followRedirectsFlag {}) chainA : Int) : Rat)) ∧
    metricValue "httpRedirects" [] (probeOut (probeHttp {} "http://a/" chainA {})) =
      some (.num ((1 : Int) : Rat)) := by
  have h : probeHttp {} "http://a/" chainA {} =
      some (.ok (probeOut (probeHttp {} "http://a/" chainA {}))) := rfl
  refine ⟨(redirects_metric_spec {} "http://a/" chainA _ h).1, ?_⟩
  rw [(redirects_metric_spec {} "http://a/" chainA _ h).1]
  rfl

/-! ## Claims C3 and C1 -/

/-- Claim C3: a transport failure resolves as a no-response outcome rather
than throwing: success is false, the failures list is empty (validators
are skipped without a response), and the metrics are still emitted with
httpStatusCode, httpVersion and httpContentLength taking value null and
the remaining non-response metrics present. -/
theorem transport_failure_outcome (q : Query) (target : String) (e : ErrLeg) (rest : List Leg)
    (st : ProbeState) (u : UrlObj) (hu : urlParse target = .ok u) :
    ∃ out, probeHttp q target (.err e :: rest) st = some (.ok out) ∧
      out.success = false ∧ out.failures = [] ∧
      metricValue "httpStatusCode" [] out = some .null ∧
      metricValue "httpVersion" [] out = some .null ∧
      metricValue "httpContentLength" [] out = some .null ∧
      (metricValue "httpCertificateExpiry" [] out).isSome ∧
      (metricValue "httpRedirects" [] out).isSome ∧
      (metricValue "httpSecure" [] out).isSome := by
  refine ⟨{ failures := []
          , metrics := assembleMetrics none
              (applySock e.startAt e.sock
                { st with requests := st.requests ++ [mkReqOptions q u] }) e.certExpiry
          , success := false }, ?_, rfl, rfl, ?_, ?_, ?_, ?_, ?_, ?_⟩
  · rw [probeHttp, hu]; rfl
  · simp [metricValue, assemble_find_statusCode, buildMetric]
  · simp [metricValue, assemble_find_version, buildMetric]
  · simp [metricValue, assemble_find_contentLength, buildMetric, contentLengthValue]
  · simp [metricValue, assemble_find_certExpiry, buildMetric]
  · simp [metricValue, assemble_find_redirects, buildMetric]
  · simp [metricValue, assemble_find_secure, buildMetric]

/-- Witness for C3: a DNS-resolved but unconnected transport failure. -/
theorem transport_failure_outcome_witness :
    ∃ out, probeHttp {} "http://a/" [.err { startAt := 0, sock := .dns 5 }] {} =
        some (.ok out) ∧
      out.success = false ∧ out.failures = [] ∧
      metricValue "httpStatusCode" [] out = some .null ∧
      metricValue "httpVersion" [] out = some .null ∧
      metricValue "httpContentLength" [] out = some .null ∧
      (metricValue "httpCertificateExpiry" [] out).isSome ∧
      (metricValue "httpRedirects" [] out).isSome ∧
      (metricValue "httpSecure" [] out).isSome :=
  transport_failure_outcome {} "http://a/" { startAt := 0, sock := .dns 5 } [] {}
    { protocol := some "http:", host := some "a", pathname := some "/" } rfl

/-- Claim C1 (code_bug evidence): on the concrete chain of one followed
redirect (first byte at 20, response end at 30) and a terminal leg (first
readable at 60, response end at 80), the emitted contentTransfer duration
is 10 milliseconds, the first legs interval alone: the guard
times.firstByteAt of line 49 is only ever set on the leg that recorded the
chains first byte, so the terminal legs 20 millisecond transfer is never
accumulated, while the claim (and the metric description summed over all
redirects) require 30 milliseconds. -/
theorem contentTransfer_only_first_leg :
    probeHttp {} "http://a/" chainA {} =
      some (.ok (probeOut (probeHttp {} "http://a/" chainA {}))) ∧
    metricValue "httpDuration" [("phase", "contentTransfer")]
        (probeOut (probeHttp {} "http://a/" chainA {})) =
      some (.num (((10 : Int) : Rat) / 1000)) ∧
    ((10 : Int) : Rat) / 1000 ≠ ((30 : Int) : Rat) / 1000 := by
  refine ⟨rfl, rfl, ?_⟩
  norm_num

/-! ## Claim C6 -/

theorem probeHttp_firstByte_inv (legs : List Leg) (q : Query) (target : String)
    (st : ProbeState) (out : ProbeResult) (v : Int) (hst : st.firstByte = some v)
    (h : probeHttp q target legs st = some (.ok out)) :
    metricValue "httpDuration" [("phase", "firstByte")] out =
      some (.num ((v : Rat) / 1000)) := by
  induction legs generalizing target st with
  | nil => simp [probeHttp] at h
  | cons leg rest ih =>
      rw [probeHttp] at h
      cases hu : urlParse target with
      | error e => rw [hu] at h; simp at h
      | ok u =>
          rw [hu] at h
          simp only [] at h
          have hst0 : ({ st with requests := st.requests ++ [mkReqOptions q u] } :
              ProbeState).firstByte = some v := hst
          cases leg with
          | err e =>
              simp only [getHttpMetrics, Option.some.injEq, Except.ok.injEq] at h
              subst h
              simp only [metricValue, assemble_find_dur_firstByte]
              rw [applySock_firstByte]
              rw [hst0]
              rfl
          | resp r =>
              simp only [] at h
              have hst1 : (processRespLeg r
                  { st with requests := st.requests ++ [mkReqOptions q u] }).firstByte =
                  some v := processRespLeg_firstByte_some _ _ _ hst0
              by_cases hc : followRedirectsFlag q ∧ 301 ≤ r.statusCode ∧ r.statusCode ≤ 302
              · rw [if_pos hc] at h
                cases hl : r.location with
                | none => rw [hl] at h; simp at h
                | some loc =>
                    rw [hl] at h
                    exact ih loc _ (by
                      rw [increase_firstByte_other _ Counter.redirects _ (by simp)]
                      exact hst1) h
              · rw [if_neg hc] at h
                simp only [getHttpMetrics] at h
                cases hv : runValidators q r.toRes
                    (processRespLeg r { st with requests := st.requests ++ [mkReqOptions q u] })
                    [] with
                | error e => rw [hv] at h; simp at h
                | ok pr =>
                    rw [hv] at h
                    simp only [Option.some.injEq, Except.ok.injEq] at h
                    subst h
                    simp only [metricValue, assemble_find_dur_firstByte]
                    rw [hst1]
                    rfl

theorem probeHttp_firstByte_first (q : Query) (target : String) (r : RespLeg)
    (rest : List Leg) (st : ProbeState) (out : ProbeResult) (t : Int) (ts : List Int)
    (hst : st.firstByte = none) (hr : r.readableTimes = t :: ts)
    (h : probeHttp q target (.resp r :: rest) st = some (.ok out)) :
    metricValue "httpDuration" [("phase", "firstByte")] out =
      some (.num (((t - jsOr r.tlsHandshakeAt r.tcpConnectionAt : Int) : Rat) / 1000)) := by
  rw [probeHttp] at h
  cases hu : urlParse target with
  | error e => rw [hu] at h; simp at h
  | ok u =>
      rw [hu] at h
      simp only [] at h
      have hst0 : ({ st with requests := st.requests ++ [mkReqOptions q u] } :
          ProbeState).firstByte = none := hst
      have hst1 : (processRespLeg r
          { st with requests := st.requests ++ [mkReqOptions q u] }).firstByte =
          some (t - jsOr r.tlsHandshakeAt r.tcpConnectionAt) :=
        processRespLeg_firstByte_first _ _ _ _ hst0 hr
      by_cases hc : followRedirectsFlag q ∧ 301 ≤ r.statusCode ∧ r.statusCode ≤ 302
      · rw [if_pos hc] at h
        cases hl : r.location with
        | none => rw [hl] at h; simp at h
        | some loc =>
            rw [hl] at h
            exact probeHttp_firstByte_inv rest q loc _ out _ (by
              rw [increase_firstByte_other _ Counter.redirects _ (by simp)]
              exact hst1) h
      · rw [if_neg hc] at h
        simp only [getHttpMetrics] at h
        cases hv : runValidators q r.toRes
            (processRespLeg r { st with requests := st.requests ++ [mkReqOptions q u] }) [] with
        | error e => rw [hv] at h; simp at h
        | ok pr =>
            rw [hv] at h
            simp only [Option.some.injEq, Except.ok.injEq] at h
            subst h
            simp only [metricValue, assemble_find_dur_firstByte]
            rw [hst1]
            rfl

/-- Claim C6: on a chain whose leg times respect the transport order
(positive start, start before connect, connect before any TLS handshake),
the firstByte duration of a successful probe equals the interval from the
latest of TLS-handshake completion, TCP-connect completion and leg start
to the first readable event of the first leg, recorded exactly once: no
later readable event and no later leg contributes, because the one-shot
marker state.firstByte is already set. -/
theorem firstByte_from_latest_once (q : Query) (target : String) (r : RespLeg)
    (rest : List Leg) (out : ProbeResult) (t : Int) (ts : List Int)
    (hr : r.readableTimes = t :: ts)
    (h0 : 0 < r.startAt) (h1 : r.startAt ≤ r.tcpConnectionAt)
    (h2 : ∀ l, r.tlsHandshakeAt = some l → r.tcpConnectionAt ≤ l)
    (hok : probeHttp q target (.resp r :: rest) {} = some (.ok out)) :
    metricValue "httpDuration" [("phase", "firstByte")] out =
      some (.num (((t - latestOf r : Int) : Rat) / 1000)) := by
  have hbase : jsOr r.tlsHandshakeAt r.tcpConnectionAt = latestOf r := by
    cases htls : r.tlsHandshakeAt with
    | none =>
        simp only [jsOr, latestOf, htls]
        exact (max_eq_left h1).symm
    | some l =>
        have hcl : r.tcpConnectionAt ≤ l := h2 l htls
        have h0l : 0 < l := lt_of_lt_of_le (lt_of_lt_of_le h0 h1) hcl
        simp only [jsOr, latestOf, htls]
        rw [if_neg (by simp [Int.ne_of_gt h0l] : ¬ (l == 0) = true)]
        rw [max_eq_left h1, max_eq_left hcl]
  rw [← hbase]
  exact probeHttp_firstByte_first q target r rest {} out t ts rfl hr hok

/-- Witness for C6 on the concrete two-leg chain: first readable at 20,
connect at 10 with no TLS handshake and start at 1, so the recorded
first-byte interval is 10 milliseconds despite the later readable event at
25 and the second leg with its own readable event. -/
theorem firstByte_from_latest_once_witness :
    metricValue "httpDuration" [("phase", "firstByte")]
        (probeOut (probeHttp {} "http://a/" chainA {})) =
      some (.num (((20 - latestOf legA1 : Int) : Rat) / 1000)) := by
  have h : probeHttp {} "http://a/" chainA {} =
      some (.ok (probeOut (probeHttp {} "http://a/" chainA {}))) := rfl
  exact firstByte_from_latest_once {} "http://a/" legA1 [.resp legA2] _ 20 [25] rfl
    (by decide) (by decide) (fun l hl => by simp [legA1] at hl) h

/-! ## Claim C4 -/

theorem statusCodeLoop_any (actual : Int) (l : List String) :
    statusCodeLoop actual l = l.any (fun c => statusEntryMatches c actual) := by
  induction l with
  | nil => rfl
  | cons c rest ih =>
      rw [statusCodeLoop]
      by_cases h : statusEntryMatches c actual = true
      · simp [h]
      · simp only [List.any_cons]
        rw [if_neg h, ih]
        simp [h]

/-- Claim C4: the status validator treats the expected set as literal
codes and wildcard classes (a digit 1 to 5 followed by xx, case
insensitively), defaults to the classes 2xx and 3xx when no expectation
is supplied, a class matches exactly when the actual code lies in its
hundred range, and exactly one failure with cause invalidHttpStatusCode
is appended exactly when no literal and no class matches; the returned
query carries the aliasing default push of line 259. -/
theorem statusCode_validator_spec (q : Query) (res : Res) (fs : List Failure) :
    (validateHttpStatusCode q res fs =
       (fs ++ (if (expectedStatusEntries q).any (fun c => statusEntryMatches c res.statusCode)
               then [] else [mkStatusCodeFailure (statusCodeQueryAfter q) res]),
        statusCodeQueryAfter q)) ∧
    (q.expectHttpStatusCode = none → expectedStatusEntries q = ["2xx", "3xx"]) ∧
    ((mkStatusCodeFailure (statusCodeQueryAfter q) res).cause = "invalidHttpStatusCode") ∧
    (∀ code : String, statusEntryMatches code res.statusCode = true ↔
       ((∃ n : Nat, statusClassDigit code = some n ∧
           100 * (n : Int) ≤ res.statusCode ∧ res.statusCode ≤ 100 * (n : Int) + 99) ∨
        jsNumber code = some res.statusCode)) := by
  refine ⟨?_, ?_, rfl, ?_⟩
  · rw [validateHttpStatusCode, statusCodeLoop_any]
    by_cases h : (expectedStatusEntries q).any (fun c => statusEntryMatches c res.statusCode) = true
    · simp [h]
    · simp only [h]
      simp at h
      simp [h]
  · intro h
    simp [expectedStatusEntries, h]
  · intro code
    cases h1 : statusClassDigit code with
    | none =>
        cases h2 : jsNumber code with
        | none => simp [statusEntryMatches, h1, h2]
        | some m => simp [statusEntryMatches, h1, h2]
    | some n =>
        cases h2 : jsNumber code with
        | none => simp [statusEntryMatches, h1, h2]
        | some m => simp [statusEntryMatches, h1, h2]

/-- Witness for C4: with no expectation supplied the expected set defaults
to the classes 2xx and 3xx, a 200 response passes with no failure, and
the query is left unchanged. -/
theorem statusCode_validator_spec_witness :
    expectedStatusEntries {} = ["2xx", "3xx"] ∧
    validateHttpStatusCode {} resB [] = ([], {}) := by
  constructor
  · exact (statusCode_validator_spec {} resB []).2.1 rfl
  · rw [(statusCode_validator_spec {} resB []).1]
    rfl

/-! ## String lemmas for the redirect-count analysis -/

theorem strCI_head (cs : List Char) (p : Char) (ps : List Char)
    (h : strCI cs (p :: ps) = true) :
    ∃ c cs', cs = c :: cs' ∧ charCI c p = true := by
  cases cs with
  | nil => simp [strCI] at h
  | cons c cs' =>
      rw [strCI, Bool.and_eq_true] at h
      exact ⟨c, cs', rfl, h.1⟩

theorem strCI_singleton (cs : List Char) (p : Char) (h : strCI cs [p] = true) :
    ∃ c, cs = [c] ∧ charCI c p = true := by
  cases cs with
  | nil => simp [strCI] at h
  | cons c cs' =>
      rw [strCI, Bool.and_eq_true] at h
      cases cs' with
      | nil => exact ⟨c, rfl, h.1⟩
      | cons d ds => simp [strCI] at h

theorem charCI_eq (c p : Char) (h : charCI c p = true) : c = p ∨ c = upperChar p := by
  rw [charCI, Bool.or_eq_true, beq_iff_eq, beq_iff_eq] at h
  exact h

theorem head_letter_not_digits (s : String) (p : Char) (ps : List Char)
    (h : strCI s.data (p :: ps) = true) (hd : s.data.all Char.isDigit = true)
    (hp : Char.isDigit p = false) (hq : Char.isDigit (upperChar p) = false) : False := by
  obtain ⟨c, cs', hcs, hcp⟩ := strCI_head _ _ _ h
  rw [hcs, List.all_cons, Bool.and_eq_true] at hd
  rcases charCI_eq _ _ hcp with rfl | rfl
  · rw [hp] at hd; exact Bool.false_ne_true hd.1
  · rw [hq] at hd; exact Bool.false_ne_true hd.1

theorem allDigits_isTrueString (s : String) (hd : s.data.all Char.isDigit = true)
    (ht : isTrueString s = true) : s = "1" := by
  rw [isTrueString, Bool.or_eq_true, Bool.or_eq_true, Bool.or_eq_true, Bool.or_eq_true] at ht
  rcases ht with (((h1 | hy) | hyes) | htc) | htrue
  · obtain ⟨c, hcs, hcp⟩ := strCI_singleton _ _ h1
    rcases charCI_eq _ _ hcp with rfl | rfl <;>
      · cases s with
        | mk d =>
            simp only [String.data] at hcs
            subst hcs
            rfl
  · exact (head_letter_not_digits s 'y' [] hy hd (by decide) (by decide)).elim
  · exact (head_letter_not_digits s 'y' _ hyes hd (by decide) (by decide)).elim
  · exact (head_letter_not_digits s 't' _ htc hd (by decide) (by decide)).elim
  · exact (head_letter_not_digits s 't' _ htrue hd (by decide) (by decide)).elim

theorem allDigits_isFalseString (s : String) (hd : s.data.all Char.isDigit = true)
    (ht : isFalseString s = true) : s = "0" := by
  rw [isFalseString, Bool.or_eq_true, Bool.or_eq_true, Bool.or_eq_true, Bool.or_eq_true] at ht
  rcases ht with (((h0 | hn) | hno) | hf) | hfalse
  · obtain ⟨c, hcs, hcp⟩ := strCI_singleton _ _ h0
    rcases charCI_eq _ _ hcp with rfl | rfl <;>
      · cases s with
        | mk d =>
            simp only [String.data] at hcs
            subst hcs
            rfl
  · exact (head_letter_not_digits s 'n' _ hn hd (by decide) (by decide)).elim
  · exact (head_letter_not_digits s 'n' _ hno hd (by decide) (by decide)).elim
  · exact (head_letter_not_digits s 'f' _ hf hd (by decide) (by decide)).elim
  · exact (head_letter_not_digits s 'f' _ hfalse hd (by decide) (by decide)).elim

/-! ## Claim C5 -/

theorem jsNumber_all_digits (s : String) (c : Int) (h : jsNumber s = some c) :
    s.data.all Char.isDigit = true := by
  by_cases hd : s.data.all Char.isDigit = true
  · exact hd
  · rw [jsNumber] at h
    simp [hd] at h

theorem redirectsBoolCheck_num_matched (s : String) (c : Int) (st : ProbeState)
    (fs : List Failure) (hn : jsNumber s = some c) (hr : st.redirects = some c) :
    redirectsBoolCheck (some s) st fs = fs := by
  have hd := jsNumber_all_digits s c hn
  by_cases ht : isTrueString s = true
  · have hs1 : s = "1" := allDigits_isTrueString s hd ht
    subst hs1
    have h1 : (some 1 : Option Int) = some c := hn
    have hc : c = 1 := (Option.some.inj h1).symm
    subst hc
    rw [redirectsBoolCheck, parseBooleanQueryParam, if_pos ht]
    rw [if_neg (by rw [hr]; simp [jsFalsyNum])]
  · by_cases hf : isFalseString s = true
    · have hs0 : s = "0" := allDigits_isFalseString s hd hf
      subst hs0
      have h1 : (some 0 : Option Int) = some c := hn
      have hc : c = 0 := (Option.some.inj h1).symm
      subst hc
      rw [redirectsBoolCheck, parseBooleanQueryParam, if_neg ht, if_pos hf]
      simp only []
      rw [if_neg (by rw [hr]; simp [jsFalsyNum])]
    · rw [redirectsBoolCheck, parseBooleanQueryParam, if_neg ht, if_neg hf]

theorem redirectsBoolCheck_spec (s : String) (st : ProbeState) (fs : List Failure) :
    redirectsBoolCheck (some s) st fs =
      fs ++ (match parseBooleanQueryParam (some s) none with
             | some true =>
                 match st.redirects with
                 | none => [mkMissingRedirectFailure]
                 | some r => if r = 0 then [mkMissingRedirectFailure] else []
             | some false =>
                 match st.redirects with
                 | none => []
                 | some r => if r = 0 then [] else [mkUnexpectedRedirectFailure st]
             | none => []) := by
  rw [redirectsBoolCheck]
  cases hb : parseBooleanQueryParam (some s) none with
  | none => simp
  | some b =>
      cases b with
      | false =>
          cases hr : st.redirects with
          | none => simp [jsFalsyNum]
          | some r =>
              simp only [jsFalsyNum]
              by_cases h0 : r = 0
              · subst h0; simp
              · simp [h0]
      | true =>
          cases hr : st.redirects with
          | none => simp [jsFalsyNum]
          | some r =>
              simp only [jsFalsyNum]
              by_cases h0 : r = 0
              · subst h0; simp
              · simp [h0]

/-- Amended claim C5: with a numeric expected count c the validator
compares c against the raw counter under the strict JavaScript
inequality, the counter being absent until a first redirect is followed,
so expected count 0 produces a failure even when no redirect was
followed; with a boolean-style expectation (the implied yes of a redirect
target included), at least one, respectively no, followed redirect is
required; with neither, no check is made. -/
theorem validateHttpRedirects_amended (q : Query) (st : ProbeState) (fs : List Failure) :
    validateHttpRedirects q st fs = fs ++ redirectCheckSpec q st ∧
    (expectedRedirectsParam q = some "0" → st.redirects = none →
       validateHttpRedirects q st fs = fs ++ [mkRedirectCountFailure 0 st]) := by
  have hmain : validateHttpRedirects q st fs = fs ++ redirectCheckSpec q st := by
    rw [validateHttpRedirects, redirectCheckSpec]
    cases he : expectedRedirectsParam q with
    | none =>
        simp only [Option.bind_none, redirectsBoolCheck, parseBooleanQueryParam]
        simp
    | some s =>
        simp only [Option.some_bind]
        cases hn : jsNumber s with
        | none =>
            simp only []
            exact redirectsBoolCheck_spec s st fs
        | some c =>
            simp only []
            by_cases hr : st.redirects = some c
            · rw [if_neg (by simp [hr]), if_pos hr]
              rw [redirectsBoolCheck_num_matched s c st fs hn hr]
              simp
            · rw [if_pos hr, if_neg hr]
  refine ⟨hmain, fun h0 hr => ?_⟩
  rw [hmain, redirectCheckSpec, h0]
  simp only []
  have hjz : jsNumber "0" = some 0 := rfl
  rw [hjz]
  simp only []
  rw [if_neg (by rw [hr]; simp)]

/-- Counterexample to claim C5 as stated: with expectHttpRedirects 0 and a
chain that is never redirected (the redirects metric is 0), the validator
still produces an invalidHttpRedirectCount failure, because the absent
counter is strictly different from the number 0. -/
theorem redirectCount_zero_counterexample :
    (probeOut (probeHttp { expectHttpRedirects := some "0" } "http://a/" chainB {})).failures.map
        Failure.cause = ["invalidHttpRedirectCount"] ∧
    metricValue "httpRedirects" []
        (probeOut (probeHttp { expectHttpRedirects := some "0" } "http://a/" chainB {})) =
      some (.num ((0 : Int) : Rat)) ∧
    (probeOut (probeHttp { expectHttpRedirects := some "0" } "http://a/" chainB {})).success =
      false := by
  refine ⟨rfl, rfl, rfl⟩

/-- Witness for the amended C5: expected count 0 with an absent counter
produces exactly the count failure. -/
theorem validateHttpRedirects_amended_witness :
    validateHttpRedirects { expectHttpRedirects := some "0" } {} [] =
      [mkRedirectCountFailure 0 {}] := by
  have h := (validateHttpRedirects_amended { expectHttpRedirects := some "0" } {} []).2 rfl rfl
  simpa using h

/-! ## Claim C7 -/

/-- Amended claim C7: in a completed metric assembly the httpContentLength
value is null when the header is missing or empty and the parseInt result
otherwise, whose NaN (for a non-empty header with no leading digits) is a
value of its own, not null; assembly is not aborted by an unparsable
header. -/
theorem contentLength_metric_spec (q : Query) (r : Res) (st : ProbeState)
    (cert : Option String) (out : ProbeResult)
    (h : getHttpMetrics q (some r) st cert = .ok out) :
    metricValue "httpContentLength" [] out = some (contentLengthSpec r.contentLength) ∧
    (∀ s, r.contentLength = some s → s.isEmpty = false → jsParseInt s = none →
       metricValue "httpContentLength" [] out = some .nan) := by
  rw [getHttpMetrics] at h
  cases hv : runValidators q r st [] with
  | error e => rw [hv] at h; simp at h
  | ok pr =>
      rw [hv] at h
      simp only [Option.some.injEq, Except.ok.injEq] at h
      subst h
      have hval : metricValue "httpContentLength" []
          ({ failures := pr.1, metrics := assembleMetrics (some r) st cert
           , success := pr.1.isEmpty } : ProbeResult) =
          some (contentLengthSpec r.contentLength) := by
        simp only [metricValue, assemble_find_contentLength, Option.map_some, buildMetric]
        cases hc : r.contentLength with
        | none => simp [contentLengthValue, contentLengthSpec, hc]
        | some s =>
            simp only [contentLengthValue, contentLengthSpec, hc]
            by_cases he : s.isEmpty = true
            · simp [he]
            · simp only [Bool.not_eq_true] at he
              simp [he]
      refine ⟨hval, fun s hs hemp hparse => ?_⟩
      rw [hval, hs]
      simp [contentLengthSpec, hemp, hparse]

/-- Counterexample to claim C7 as stated: a present but unparsable
content-length header (abc) yields the NaN value, which is not null,
while assembly still completes. -/
theorem contentLength_nan_counterexample :
    getHttpMetrics {} (some resCL) {} none =
      .ok (exceptOut (getHttpMetrics {} (some resCL) {} none)) ∧
    metricValue "httpContentLength" [] (exceptOut (getHttpMetrics {} (some resCL) {} none)) =
      some .nan ∧
    MVal.nan ≠ MVal.null := by
  refine ⟨rfl, rfl, by decide⟩

/-- Witness for the amended C7 at the same header. -/
theorem contentLength_metric_spec_witness :
    metricValue "httpContentLength" [] (exceptOut (getHttpMetrics {} (some resCL) {} none)) =
      some (contentLengthSpec (some "abc")) := by
  have h : getHttpMetrics {} (some resCL) {} none =
      .ok (exceptOut (getHttpMetrics {} (some resCL) {} none)) := rfl
  exact (contentLength_metric_spec {} resCL {} none _ h).1

/-! ## Claim C8 -/

/-- Claim C8: when expectHttpRedirectTo does not parse as a URL, the probe
propagates the parse error as a fatal input error instead of resolving
with an outcome, so no failure ever reaches a failures list. -/
theorem redirectTarget_parse_error_fatal (q : Query) (target : String) (r : RespLeg)
    (st : ProbeState) (u : UrlObj) (s uerr : String)
    (hu : urlParse target = .ok u)
    (hterm : ¬ (301 ≤ r.statusCode ∧ r.statusCode ≤ 302))
    (hto : q.expectHttpRedirectTo = some s)
    (herr : urlParse s = .error uerr) :
    probeHttp q target [.resp r] st = some (.error uerr) ∧
    (∀ out, probeHttp q target [.resp r] st ≠ some (.ok out)) := by
  have hmain : probeHttp q target [.resp r] st = some (.error uerr) := by
    rw [probeHttp, hu]
    simp only []
    rw [if_neg (fun hc => hterm hc.2)]
    rw [getHttpMetrics]
    have hrun : runValidators q r.toRes
        (processRespLeg r { st with requests := st.requests ++ [mkReqOptions q u] }) [] =
        .error uerr := by
      rw [runValidators, validateHttpRedirectTarget, hto]
      simp only []
      rw [herr]
    rw [hrun]
  exact ⟨hmain, fun out hout => by rw [hmain] at hout; simp at hout⟩

/-- Witness for C8: an expected-redirect URL with an unclosed bracketed
host makes the probe resolve with the parse error. -/
theorem redirectTarget_parse_error_fatal_witness :
    probeHttp { expectHttpRedirectTo := some "http://[" } "http://a/" [.resp legA2] {} =
      some (.error "Invalid URL: http://[") :=
  (redirectTarget_parse_error_fatal { expectHttpRedirectTo := some "http://[" } "http://a/"
    legA2 {} { protocol := some "http:", host := some "a", pathname := some "/" }
    "http://[" "Invalid URL: http://[" rfl (by decide) rfl rfl).1

/-! ## Claim C9: append-only validators -/

theorem redirectsBoolCheck_app (er : Option String) (st : ProbeState)
    (xs ys : List Failure) :
    redirectsBoolCheck er st (xs ++ ys) = xs ++ redirectsBoolCheck er st ys := by
  rw [redirectsBoolCheck, redirectsBoolCheck]
  cases hb : parseBooleanQueryParam er none with
  | none => rfl
  | some b =>
      cases b with
      | true =>
          by_cases h : jsFalsyNum st.redirects = true
          · simp [h, List.append_assoc]
          · simp [h]
      | false =>
          by_cases h : jsFalsyNum st.redirects = true
          · simp [h]
          · simp [h, List.append_assoc]

theorem validateHttpRedirects_app (q : Query) (st : ProbeState) (xs ys : List Failure) :
    validateHttpRedirects q st (xs ++ ys) = xs ++ validateHttpRedirects q st ys := by
  rw [validateHttpRedirects, validateHttpRedirects]
  cases hn : (expectedRedirectsParam q).bind jsNumber with
  | none => exact redirectsBoolCheck_app _ _ _ _
  | some c =>
      by_cases hr : st.redirects ≠ some c
      · simp [hr, List.append_assoc]
      · simp only [hr, if_false, if_neg hr]
        exact redirectsBoolCheck_app _ _ _ _

theorem validateHttpRedirectTarget_app (q : Query) (st : ProbeState) (xs ys : List Failure) :
    validateHttpRedirectTarget q st (xs ++ ys) =
      (validateHttpRedirectTarget q st ys).map (fun batch => xs ++ batch) := by
  rw [validateHttpRedirectTarget, validateHttpRedirectTarget]
  cases q.expectHttpRedirectTo with
  | none => rfl
  | some u =>
      simp only []
      cases urlParse u with
      | error e => rfl
      | ok exp =>
          simp only []
          cases st.requests.getLast? with
          | none => rfl
          | some lastReq =>
              simp only []
              by_cases h : exp.protocol ≠ lastReq.protocol ∨ exp.host ≠ lastReq.host ∨
                  exp.pathname ≠ lastReq.pathname
              · simp [h, Except.map, List.append_assoc]
              · simp [h, Except.map]

theorem bodyMatchLoop_app (body : String) (ps : List String) (xs ys : List Failure) :
    bodyMatchLoop body ps (xs ++ ys) = xs ++ bodyMatchLoop body ps ys := by
  induction ps generalizing ys with
  | nil => rfl
  | cons p rest ih =>
      rw [bodyMatchLoop, bodyMatchLoop]
      by_cases h : (jsRegexFind p body).isNone = true
      · rw [if_pos h, if_pos h, List.append_assoc]
        exact ih (ys ++ [mkBodyMatchFailure p])
      · rw [if_neg h, if_neg h]
        exact ih ys

theorem bodyMismatchLoop_app (body : String) (ps : List String) (xs ys : List Failure) :
    bodyMismatchLoop body ps (xs ++ ys) = xs ++ bodyMismatchLoop body ps ys := by
  induction ps generalizing ys with
  | nil => rfl
  | cons p rest ih =>
      rw [bodyMismatchLoop, bodyMismatchLoop]
      cases jsRegexFind p body with
      | some m =>
          simp only []
          rw [List.append_assoc]
          exact ih (ys ++ [mkBodyMismatchFailure p m])
      | none =>
          simp only []
          exact ih ys

theorem validateHttpResponseBody_app (q : Query) (res : Res) (xs ys : List Failure) :
    validateHttpResponseBody q res (xs ++ ys) = xs ++ validateHttpResponseBody q res ys := by
  rw [validateHttpResponseBody, validateHttpResponseBody, bodyMatchLoop_app,
    bodyMismatchLoop_app]

theorem validateHttpSecurity_app (q : Query) (st : ProbeState) (xs ys : List Failure) :
    validateHttpSecurity q st (xs ++ ys) = xs ++ validateHttpSecurity q st ys := by
  rw [validateHttpSecurity, validateHttpSecurity]
  cases parseBooleanQueryParam (toArrayQ q.expectHttpSecure).getLast? none with
  | none => rfl
  | some b =>
      cases b with
      | true =>
          by_cases h : st.tlsHandshake.isNone = true
          · simp [h, List.append_assoc]
          · simp [h]
      | false =>
          by_cases h : st.tlsHandshake.isSome = true
          · simp [h, List.append_assoc]
          · simp [h]

theorem validateHttpStatusCode_app (q : Query) (res : Res) (xs ys : List Failure) :
    (validateHttpStatusCode q res (xs ++ ys)).1 =
      xs ++ (validateHttpStatusCode q res ys).1 ∧
    (validateHttpStatusCode q res (xs ++ ys)).2 = (validateHttpStatusCode q res ys).2 := by
  rw [validateHttpStatusCode, validateHttpStatusCode]
  by_cases h : statusCodeLoop res.statusCode (expectedStatusEntries q) = true
  · simp [h]
  · simp [h, List.append_assoc]

theorem validateHttpVersion_app (q : Query) (res : Res) (xs ys : List Failure) :
    validateHttpVersion q res (xs ++ ys) = xs ++ validateHttpVersion q res ys := by
  rw [validateHttpVersion, validateHttpVersion]
  cases q.expectHttpVersion with
  | none => rfl
  | some e =>
      simp only []
      by_cases he : e.isEmpty = true
      · simp [he]
      · simp only [he, if_false]
        by_cases hv : res.httpVersion ≠ e
        · simp [hv, List.append_assoc]
        · simp [hv]

theorem validateHttpStatusCode_snd (q : Query) (res : Res) (fs : List Failure) :
    (validateHttpStatusCode q res fs).2 = statusCodeQueryAfter q := by
  rw [validateHttpStatusCode]
  by_cases h : statusCodeLoop res.statusCode (expectedStatusEntries q) = true
  · simp [h]
  · simp [h]

theorem statusCodeQueryAfter_eq (q : Query) (h : q.expectHttpStatusCode ≠ some (.a [])) :
    statusCodeQueryAfter q = q := by
  rw [statusCodeQueryAfter]
  cases hq : q.expectHttpStatusCode with
  | none => rfl
  | some v =>
      cases v with
      | s s0 => rfl
      | a vs =>
          cases vs with
          | nil => exact absurd hq h
          | cons hd tl => rfl

/-- Counterexample to claim C9 as stated: the no-mutation clause fails on
the program. With expectHttpStatusCode supplied as an empty array, the
local expected list of line 257 aliases the query array and the default
push of line 259 writes the classes 2xx and 3xx into the query itself:
the validator set hands back a query different from the one it was given
(and the expected detail field of a status failure would report the
pushed defaults). -/
theorem validators_mutate_counterexample :
    runValidators { expectHttpStatusCode := some (.a []) } resB {} [] =
      .ok ([], { expectHttpStatusCode := some (.a ["2xx", "3xx"]) }) ∧
    ({ expectHttpStatusCode := some (.a ["2xx", "3xx"]) } : Query) ≠
      { expectHttpStatusCode := some (.a []) } := by
  refine ⟨rfl, by decide⟩

/-- Amended claim C9: the validator set is deterministic and append-only
in its failure output: running the six validators on any prior failures
list returns exactly that list extended by the batch computed from the
empty list, so two runs on an identical tuple yield identical batches and
no existing failure is altered, reordered or removed; the response and
the probe state are only read; the query parameters, however, are not
invariant: the set hands back the input query transformed by the status
validator aliasing push, which rewrites an empty supplied
expectHttpStatusCode array into the default classes and leaves every
other query unchanged. -/
theorem validators_deterministic_append_only (q : Query) (res : Res) (st : ProbeState)
    (fs : List Failure) :
    runValidators q res st fs =
      (runValidators q res st []).map (fun pr => (fs ++ pr.1, pr.2)) ∧
    (∀ fs' q', runValidators q res st fs = .ok (fs', q') →
       q' = statusCodeQueryAfter q ∧
       (q.expectHttpStatusCode ≠ some (.a []) → q' = q)) := by
  have h1 : validateHttpRedirects q st fs = fs ++ validateHttpRedirects q st [] := by
    have := validateHttpRedirects_app q st fs []
    rwa [List.append_nil] at this
  constructor
  · rw [runValidators, runValidators, h1, validateHttpRedirectTarget_app]
    cases validateHttpRedirectTarget q st (validateHttpRedirects q st []) with
    | error e => rfl
    | ok f2 =>
        simp only [Except.map]
        rw [validateHttpResponseBody_app, validateHttpSecurity_app,
          (validateHttpStatusCode_app q res _ _).1, (validateHttpStatusCode_app q res _ _).2,
          validateHttpVersion_app]
  · intro fs' q' h
    rw [runValidators] at h
    cases hvt : validateHttpRedirectTarget q st (validateHttpRedirects q st fs) with
    | error e => rw [hvt] at h; simp at h
    | ok f2 =>
        rw [hvt] at h
        simp only [Option.some.injEq, Except.ok.injEq, Prod.mk.injEq] at h
        have hq' : q' = statusCodeQueryAfter q := by
          rw [← h.2]
          exact validateHttpStatusCode_snd q res _
        exact ⟨hq', fun hne => by rw [hq', statusCodeQueryAfter_eq q hne]⟩

/-- Witness for the amended C9 at a query with no status expectation: the
set returns the query unchanged. -/
theorem validators_deterministic_append_only_witness :
    ({} : Query) = statusCodeQueryAfter ({} : Query) ∧ ({} : Query) = ({} : Query) := by
  have h := (validators_deterministic_append_only {} resB {} []).2 [] {} rfl
  exact ⟨h.1, h.2 (by decide)⟩

/-! ## Claim C10 -/

/-- Claim C10: when expectHttpSecure is supplied as an array, only its
last element feeds the tri-state security expectation: the validator
behaves exactly as if the scalar last element had been supplied, for
every prefix of earlier elements. -/
theorem security_last_element (q : Query) (vs : List String) (v : String)
    (st : ProbeState) (fs : List Failure) :
    validateHttpSecurity { q with expectHttpSecure := some (.a (vs ++ [v])) } st fs =
      validateHttpSecurity { q with expectHttpSecure := some (.s v) } st fs := by
  rw [validateHttpSecurity, validateHttpSecurity]
  simp only [toArrayQ]
  rw [List.getLast?_concat]
  exact rfl
end ProbeSrv
